import Mathlib

/-!
Verification development for the subtensor staking / neuron-slot subsystem.

The Rust sources embedded here:
- `pallets/subtensor/src/subnets/uids.rs` (neuron slot manager:
  `set_element_at`, `clear_neuron`, `replace_neuron`, `append_neuron`);
- `pallets/subtensor/src/staking/remove_stake.rs` (staking entry points:
  `do_remove_stake`, `do_unstake_all`, `do_unstake_all_alpha`,
  `do_remove_stake_limit`, `get_max_amount_remove`);
- `runtime/src/precompiles/balance_transfer.rs` together with `get_slice`
  from `runtime/src/precompiles/mod.rs`.

Account identifiers (`T::AccountId`) are embedded as `Nat` (with `0` the
default account value), `u16` subnet ids and uids as `Nat`, `u64` amounts as
`Nat` with explicit saturation where the source saturates.  The signed
fixed-point type `I64F64` used for stake weights is embedded as `ℚ`: every
`I64F64` value is a dyadic rational, and only the linear order on values is
consulted by the embedded code.

Collaborator functions that live outside the embedded files (storage getters
such as `get_owning_coldkey_for_hotkey`, and the stake-ledger primitives of
spec section 4.1) are modelled as state fields or as definitions marked
`Modelled from the spec:`.
-/

namespace Subtensor

/-- Dispatch errors surfaced by the staking entry points (spec section 7). -/
inductive SubtensorError where
  | NotRegistered
  | HotKeyAccountNotExists
  | HotKeyNotRegisteredInSubNet
  | NonAssociatedColdKey
  | NotEnoughStakeToWithdraw
  | TxRateLimitExceeded
  deriving DecidableEq, Repr

/-- Storage touched by `uids.rs`.  Double maps are embedded as curried
functions; `Option`-valued maps distinguish present and absent keys
(`try_get` / `contains_key` semantics).  Per-slot metric vectors are lists.
The fields `owningColdkey` (`Owner` storage, read through
`get_owning_coldkey_for_hotkey`), `subnetOwner` (`SubnetOwner` storage, read
through `get_subnet_owner`) and `stakeWeights` (first component of
`get_stake_weights_for_hotkey_on_subnet`, an external collaborator
computation) are storage outside the embedded file, modelled as opaque-to-us
read-only data of the state. -/
structure SubnetState where
  subnetworkN : Nat → Nat
  keys : Nat → Nat → Option Nat
  uids : Nat → Nat → Option Nat
  isNetworkMember : Nat → Nat → Option Bool
  rank : Nat → List Nat
  trust : Nat → List Nat
  active : Nat → List Bool
  emission : Nat → List Nat
  consensus : Nat → List Nat
  incentive : Nat → List Nat
  dividends : Nat → List Nat
  lastUpdate : Nat → List Nat
  pruningScores : Nat → List Nat
  validatorTrust : Nat → List Nat
  validatorPermit : Nat → List Bool
  blockAtRegistration : Nat → Nat → Nat
  neuronCertificates : Nat → Nat → Option Nat
  axons : Nat → Nat → Option Nat
  owningColdkey : Nat → Nat
  subnetOwner : Nat → Nat
  stakeWeights : Nat → Nat → ℚ

/-- `get_subnetwork_n`: the number of filled slots on a network. -/
def get_subnetwork_n (st : SubnetState) (netuid : Nat) : Nat :=
  st.subnetworkN netuid

/-- `set_element_at`: sets the value at the given position if it exists
(`vec.get_mut(position)` returns `None` out of bounds, in which case nothing
happens). -/
def set_element_at {N : Type} : List N → Nat → N → List N
  | [], _, _ => []
  | _ :: xs, 0, value => value :: xs
  | x :: xs, position + 1, value => x :: set_element_at xs position value

/-- `clear_neuron`: resets the emission, trust, consensus, incentive and
dividends of the neuron at `neuron_uid` to 0 (each through
`set_element_at`). -/
def clear_neuron (st : SubnetState) (netuid : Nat) (neuron_uid : Nat) :
    SubnetState :=
  { st with
    emission := fun n =>
      if n = netuid then set_element_at (st.emission n) neuron_uid 0
      else st.emission n
    trust := fun n =>
      if n = netuid then set_element_at (st.trust n) neuron_uid 0
      else st.trust n
    consensus := fun n =>
      if n = netuid then set_element_at (st.consensus n) neuron_uid 0
      else st.consensus n
    incentive := fun n =>
      if n = netuid then set_element_at (st.incentive n) neuron_uid 0
      else st.incentive n
    dividends := fun n =>
      if n = netuid then set_element_at (st.dividends n) neuron_uid 0
      else st.dividends n }

/-- One iteration of the owner-top-stake scan inside `replace_neuron`: at
`neuron_uid`, if `Keys` holds a hotkey whose owning coldkey is the subnet
owner and whose stake weight is strictly greater than the running maximum,
the accumulator is replaced by that hotkey and weight; otherwise (vacant uid,
non-owner hotkey, or no strict improvement) it is kept. -/
def scanStep (st : SubnetState) (netuid : Nat) (acc : Option Nat × ℚ)
    (neuron_uid : Nat) : Option Nat × ℚ :=
  match st.keys netuid neuron_uid with
  | none => acc
  | some hotkey =>
    if st.subnetOwner netuid ≠ st.owningColdkey hotkey then acc
    else if st.stakeWeights hotkey netuid > acc.2 then
      (some hotkey, st.stakeWeights hotkey netuid)
    else acc

/-- The `for neuron_uid in 0..get_subnetwork_n(netuid)` loop of
`replace_neuron`, with `m` iterations remaining and `u` the next uid. -/
def scanAux (st : SubnetState) (netuid : Nat) :
    Nat → Nat → Option Nat × ℚ → Option Nat × ℚ
  | 0, _, acc => acc
  | m + 1, u, acc => scanAux st netuid m (u + 1) (scanStep st netuid acc u)

/-- The owner-top-stake scan of `replace_neuron`: scans uids
`0 .. get_subnetwork_n netuid` in increasing order, starting from
accumulator `(None, I64F64::from_num(-1))`, and returns the selected
hotkey. -/
def topStakeScan (st : SubnetState) (netuid : Nat) : Option Nat :=
  (scanAux st netuid (get_subnetwork_n st netuid) 0 (none, -1)).1

/-- Modelled from the spec: `set_active_for_uid` is not part of the embedded
files; per spec section 4.3 (`replace_neuron` installs the new hotkey "with
active=true") and section 9 (arena pattern, "replacement = overwrite in
place") it overwrites the `Active` element at the uid. -/
def set_active_for_uid (st : SubnetState) (netuid : Nat) (uid : Nat)
    (value : Bool) : SubnetState :=
  { st with
    active := fun n =>
      if n = netuid then set_element_at (st.active n) uid value
      else st.active n }

/-- Steps 2 to 5a of `replace_neuron` (the mutating tail after the
owner-protection guard): remove the old uid/hotkey/membership entries; set
active true at the uid; insert the new hotkey's uid/hotkey/membership entries
and registration block; drop the old hotkey's certificate; clear the slot's
metrics via `clear_neuron`; drop the old hotkey's axon entry. -/
def replace_neuron_mutate (st : SubnetState) (netuid uid_to_replace
    old_hotkey new_hotkey block_number : Nat) : SubnetState :=
  let st1 :=
    { st with
      uids := fun n h =>
        if n = netuid ∧ h = old_hotkey then none else st.uids n h
      isNetworkMember := fun h n =>
        if h = old_hotkey ∧ n = netuid then none
        else st.isNetworkMember h n
      keys := fun n u =>
        if n = netuid ∧ u = uid_to_replace then none else st.keys n u }
  let st2 := set_active_for_uid st1 netuid uid_to_replace true
  let st3 :=
    { st2 with
      keys := fun n u =>
        if n = netuid ∧ u = uid_to_replace then some new_hotkey
        else st2.keys n u
      uids := fun n h =>
        if n = netuid ∧ h = new_hotkey then some uid_to_replace
        else st2.uids n h
      blockAtRegistration := fun n u =>
        if n = netuid ∧ u = uid_to_replace then block_number
        else st2.blockAtRegistration n u
      isNetworkMember := fun h n =>
        if h = new_hotkey ∧ n = netuid then some true
        else st2.isNetworkMember h n
      neuronCertificates := fun n h =>
        if n = netuid ∧ h = old_hotkey then none
        else st2.neuronCertificates n h }
  let st4 := clear_neuron st3 netuid uid_to_replace
  { st4 with
    axons := fun n h =>
      if n = netuid ∧ h = old_hotkey then none else st4.axons n h }

/-- `replace_neuron`: reads the occupant hotkey at `uid_to_replace`
(`Keys::get`, defaulting to the default account `0` when vacant), runs the
owner-top-stake scan, and if the selected hotkey equals the occupant returns
the state unchanged; otherwise removes the old memberships, installs the new
hotkey at the same uid (active set to true, registration block recorded),
drops the old hotkey's certificate and axon entries, and clears the slot's
metrics via `clear_neuron`. -/
def replace_neuron (st : SubnetState) (netuid : Nat) (uid_to_replace : Nat)
    (new_hotkey : Nat) (block_number : Nat) : SubnetState :=
  let old_hotkey : Nat := (st.keys netuid uid_to_replace).getD 0
  match topStakeScan st netuid with
  | some sn_owner_hotkey =>
    if sn_owner_hotkey = old_hotkey then st
    else replace_neuron_mutate st netuid uid_to_replace old_hotkey new_hotkey
      block_number
  | none =>
    replace_neuron_mutate st netuid uid_to_replace old_hotkey new_hotkey
      block_number

/-- The `u16` saturation bound used by `saturating_add` on the slot count. -/
def U16MAX : Nat := 65535

/-- `append_neuron`: the next uid is the current slot count; the count is
bumped with `u16::saturating_add(1)`; one default element is pushed onto each
of the eleven per-slot metric vectors; and the uid-to-hotkey map, the
hotkey-to-uid map, the registration block and the network-membership flag are
inserted for the new slot. -/
def append_neuron (st : SubnetState) (netuid : Nat) (new_hotkey : Nat)
    (block_number : Nat) : SubnetState :=
  let next_uid : Nat := get_subnetwork_n st netuid
  { st with
    subnetworkN := fun n =>
      if n = netuid then min (next_uid + 1) U16MAX else st.subnetworkN n
    rank := fun n => if n = netuid then st.rank n ++ [0] else st.rank n
    trust := fun n => if n = netuid then st.trust n ++ [0] else st.trust n
    active := fun n =>
      if n = netuid then st.active n ++ [true] else st.active n
    emission := fun n =>
      if n = netuid then st.emission n ++ [0] else st.emission n
    consensus := fun n =>
      if n = netuid then st.consensus n ++ [0] else st.consensus n
    incentive := fun n =>
      if n = netuid then st.incentive n ++ [0] else st.incentive n
    dividends := fun n =>
      if n = netuid then st.dividends n ++ [0] else st.dividends n
    lastUpdate := fun n =>
      if n = netuid then st.lastUpdate n ++ [block_number]
      else st.lastUpdate n
    pruningScores := fun n =>
      if n = netuid then st.pruningScores n ++ [0] else st.pruningScores n
    validatorTrust := fun n =>
      if n = netuid then st.validatorTrust n ++ [0] else st.validatorTrust n
    validatorPermit := fun n =>
      if n = netuid then st.validatorPermit n ++ [false]
      else st.validatorPermit n
    keys := fun n u =>
      if n = netuid ∧ u = next_uid then some new_hotkey else st.keys n u
    uids := fun n h =>
      if n = netuid ∧ h = new_hotkey then some next_uid else st.uids n h
    blockAtRegistration := fun n u =>
      if n = netuid ∧ u = next_uid then block_number
      else st.blockAtRegistration n u
    isNetworkMember := fun h n =>
      if h = new_hotkey ∧ n = netuid then some true
      else st.isNetworkMember h n }

/-- If every owner-owned hotkey visible at a uid in `[u, u + m)` has stake
weight at most the accumulator weight, the scan keeps the accumulator. -/
lemma scanStep_keep (st : SubnetState) (netuid : Nat) (acc : Option Nat × ℚ)
    (u : Nat)
    (h : ∀ hk, st.keys netuid u = some hk →
      st.subnetOwner netuid = st.owningColdkey hk →
      st.stakeWeights hk netuid ≤ acc.2) :
    scanStep st netuid acc u = acc := by
  cases hk : st.keys netuid u with
  | none => unfold scanStep; simp only [hk]
  | some hotkey =>
    unfold scanStep
    simp only [hk]
    by_cases hown : st.subnetOwner netuid = st.owningColdkey hotkey
    · rw [if_neg (by simp [hown]), if_neg (not_lt.mpr (h hotkey hk hown))]
    · rw [if_pos hown]

/-- Once the accumulator holds a weight at least every owner-owned stake
weight in the remaining range, the scan never changes it. -/
lemma scanAux_stay (st : SubnetState) (netuid : Nat) (occ : Nat) (w : ℚ) :
    ∀ m u, (∀ u' hk, u ≤ u' → u' < u + m → st.keys netuid u' = some hk →
      st.subnetOwner netuid = st.owningColdkey hk →
      st.stakeWeights hk netuid ≤ w) →
    scanAux st netuid m u (some occ, w) = (some occ, w) := by
  intro m
  induction m with
  | zero => intro u _; rfl
  | succ m ih =>
    intro u hall
    show scanAux st netuid m (u + 1) (scanStep st netuid (some occ, w) u) =
      (some occ, w)
    rw [scanStep_keep st netuid (some occ, w) u
      (fun hk hkey hown => hall u hk (le_refl u) (by omega) hkey hown)]
    exact ih (u + 1) (fun u' hk h1 h2 => hall u' hk (by omega) (by omega))

/-- The scan over `[u, u + m)` selects the hotkey `occ` sitting at uid `u1`
when: the accumulator weight is below `occ`'s weight, every owner-owned
hotkey other than `occ` at a uid before `u1` has strictly smaller weight, and
every owner-owned hotkey in the range has weight at most `occ`'s. -/
lemma scanAux_first_max (st : SubnetState) (netuid : Nat) (occ u1 : Nat)
    (hkey : st.keys netuid u1 = some occ)
    (hown : st.subnetOwner netuid = st.owningColdkey occ) :
    ∀ m u acc, u ≤ u1 → u1 < u + m →
      acc.2 < st.stakeWeights occ netuid →
      (∀ u' hk, u ≤ u' → u' < u1 → st.keys netuid u' = some hk →
        st.subnetOwner netuid = st.owningColdkey hk → hk ≠ occ →
        st.stakeWeights hk netuid < st.stakeWeights occ netuid) →
      (∀ u' hk, u ≤ u' → u' < u + m → st.keys netuid u' = some hk →
        st.subnetOwner netuid = st.owningColdkey hk →
        st.stakeWeights hk netuid ≤ st.stakeWeights occ netuid) →
      (scanAux st netuid m u acc).1 = some occ := by
  intro m
  induction m with
  | zero =>
    intro u acc h1 h2 _ _ _
    exfalso; omega
  | succ m ih =>
    intro u acc hle hlt hacc hbefore hall
    show (scanAux st netuid m (u + 1) (scanStep st netuid acc u)).1 = some occ
    by_cases hu : u = u1
    · subst hu
      have hstep : scanStep st netuid acc u =
          (some occ, st.stakeWeights occ netuid) := by
        unfold scanStep
        simp only [hkey]
        rw [if_neg (by simp [hown]), if_pos hacc]
      rw [hstep, scanAux_stay st netuid occ (st.stakeWeights occ netuid) m
        (u + 1) (fun u' hk h1 h2 => hall u' hk (by omega) (by omega))]
    · have hu1 : u < u1 := by omega
      cases hk : st.keys netuid u with
      | none =>
        have hstep : scanStep st netuid acc u = acc := by
          unfold scanStep; simp only [hk]
        rw [hstep]
        exact ih (u + 1) acc (by omega) (by omega) hacc
          (fun u' hk h1 h2 => hbefore u' hk (by omega) h2)
          (fun u' hk h1 h2 => hall u' hk (by omega) (by omega))
      | some hk1 =>
        by_cases howk : st.subnetOwner netuid = st.owningColdkey hk1
        · by_cases hgt : acc.2 < st.stakeWeights hk1 netuid
          · have hstep : scanStep st netuid acc u =
                (some hk1, st.stakeWeights hk1 netuid) := by
              unfold scanStep
              simp only [hk]
              rw [if_neg (by simp [howk]), if_pos hgt]
            rw [hstep]
            by_cases heq : hk1 = occ
            · subst heq
              exact congrArg Prod.fst (scanAux_stay st netuid hk1
                (st.stakeWeights hk1 netuid) m (u + 1)
                (fun u' hk h1 h2 => hall u' hk (by omega) (by omega)))
            · exact ih (u + 1) (some hk1, st.stakeWeights hk1 netuid)
                (by omega) (by omega)
                (hbefore u hk1 (le_refl u) hu1 hk howk heq)
                (fun u' hk h1 h2 => hbefore u' hk (by omega) h2)
                (fun u' hk h1 h2 => hall u' hk (by omega) (by omega))
          · have hstep : scanStep st netuid acc u = acc := by
              unfold scanStep
              simp only [hk]
              rw [if_neg (by simp [howk]), if_neg hgt]
            rw [hstep]
            exact ih (u + 1) acc (by omega) (by omega) hacc
              (fun u' hk h1 h2 => hbefore u' hk (by omega) h2)
              (fun u' hk h1 h2 => hall u' hk (by omega) (by omega))
        · have hstep : scanStep st netuid acc u = acc := by
            unfold scanStep
            simp only [hk]
            rw [if_pos howk]
          rw [hstep]
          exact ih (u + 1) acc (by omega) (by omega) hacc
            (fun u' hk h1 h2 => hbefore u' hk (by omega) h2)
            (fun u' hk h1 h2 => hall u' hk (by omega) (by omega))

/-- The owner-top-stake scan of `replace_neuron` returns the owner-owned
hotkey `occ` at uid `u1` when `occ`'s weight beats the `-1` sentinel, every
owner-owned hotkey at a smaller uid other than `occ` has strictly smaller
weight, and every owner-owned hotkey on the subnet has weight at most
`occ`'s. -/
lemma topStakeScan_first_max (st : SubnetState) (netuid : Nat) (occ u1 : Nat)
    (hu1 : u1 < get_subnetwork_n st netuid)
    (hkey : st.keys netuid u1 = some occ)
    (hown : st.subnetOwner netuid = st.owningColdkey occ)
    (hsent : (-1 : ℚ) < st.stakeWeights occ netuid)
    (hbefore : ∀ u' hk, u' < u1 → st.keys netuid u' = some hk →
      st.subnetOwner netuid = st.owningColdkey hk → hk ≠ occ →
      st.stakeWeights hk netuid < st.stakeWeights occ netuid)
    (hall : ∀ u' hk, u' < get_subnetwork_n st netuid →
      st.keys netuid u' = some hk →
      st.subnetOwner netuid = st.owningColdkey hk →
      st.stakeWeights hk netuid ≤ st.stakeWeights occ netuid) :
    topStakeScan st netuid = some occ :=
  scanAux_first_max st netuid occ u1 hkey hown
    (get_subnetwork_n st netuid) 0 (none, -1) (Nat.zero_le u1) (by omega)
    hsent
    (fun u' hk _ h2 => hbefore u' hk h2)
    (fun u' hk _ h2 => hall u' hk (by omega))

/-- The new hotkey installed by `replace_neuron_mutate` lands in the
uid-to-hotkey map at the replaced uid. -/
lemma replace_neuron_mutate_keys (st : SubnetState)
    (netuid uid_to_replace old_hotkey new_hotkey block_number : Nat) :
    (replace_neuron_mutate st netuid uid_to_replace old_hotkey new_hotkey
      block_number).keys netuid uid_to_replace = some new_hotkey := by
  simp [replace_neuron_mutate, clear_neuron, set_active_for_uid]

/-- Concrete example subnet: subnet `0` has `n` filled slots, hotkey `i + 1`
at uid `i`, every hotkey owned by coldkey `7`, subnet `0` owned by coldkey
`7`, and stake weight `w i` for hotkey `i`. -/
def exSubnet (n : Nat) (w : Nat → ℚ) : SubnetState where
  subnetworkN := fun m => if m = 0 then n else 0
  keys := fun m u => if m = 0 ∧ u < n then some (u + 1) else none
  uids := fun m h => if m = 0 ∧ 1 ≤ h ∧ h ≤ n then some (h - 1) else none
  isNetworkMember := fun h m =>
    if m = 0 ∧ 1 ≤ h ∧ h ≤ n then some true else none
  rank := fun _ => List.replicate n 0
  trust := fun _ => List.replicate n 0
  active := fun _ => List.replicate n true
  emission := fun _ => List.replicate n 0
  consensus := fun _ => List.replicate n 0
  incentive := fun _ => List.replicate n 0
  dividends := fun _ => List.replicate n 0
  lastUpdate := fun _ => List.replicate n 0
  pruningScores := fun _ => List.replicate n 0
  validatorTrust := fun _ => List.replicate n 0
  validatorPermit := fun _ => List.replicate n false
  blockAtRegistration := fun _ _ => 0
  neuronCertificates := fun _ _ => none
  axons := fun _ _ => none
  owningColdkey := fun _ => 7
  subnetOwner := fun _ => 7
  stakeWeights := fun h _ => w h

/-- Claim C1 (amended): for every subnet, uid to replace, and stake-weight
configuration with a strict maximum among the subnet owner's hotkeys, if the
occupant hotkey at that uid is the owner's highest-stake-weight hotkey AND
its stake weight exceeds the scan's `-1` sentinel, then `replace_neuron`
returns the state unchanged: the occupant is never evicted and the new
hotkey is not installed. -/
theorem replace_neuron_owner_top_stake_noop (st : SubnetState)
    (netuid uid_to_replace occ new_hotkey block_number : Nat)
    (hu : uid_to_replace < get_subnetwork_n st netuid)
    (hkey : st.keys netuid uid_to_replace = some occ)
    (hown : st.subnetOwner netuid = st.owningColdkey occ)
    (hsent : (-1 : ℚ) < st.stakeWeights occ netuid)
    (hmax : ∀ u hk, u < get_subnetwork_n st netuid →
      st.keys netuid u = some hk →
      st.subnetOwner netuid = st.owningColdkey hk → hk ≠ occ →
      st.stakeWeights hk netuid < st.stakeWeights occ netuid) :
    replace_neuron st netuid uid_to_replace new_hotkey block_number = st := by
  have hscan : topStakeScan st netuid = some occ :=
    topStakeScan_first_max st netuid occ uid_to_replace hu hkey hown hsent
      (fun u' hk h1 h2 h3 h4 => hmax u' hk (by omega) h2 h3 h4)
      (fun u' hk h1 h2 h3 => by
        by_cases heq : hk = occ
        · exact le_of_eq (by rw [heq])
        · exact le_of_lt (hmax u' hk h1 h2 h3 heq))
  unfold replace_neuron
  simp only [hscan, hkey, Option.getD_some, if_pos rfl, if_true]

/-- Claim C1 counterexample: in a one-slot subnet whose only (hence
strict-maximum) owner-owned hotkey is the occupant but carries stake weight
`-1`, `replace_neuron` does not skip — the occupant (hotkey 1) is evicted
and the new hotkey 2 is installed at uid 0, so the state is not left
unchanged even though the occupant is the owner's highest-stake-weight
hotkey. -/
theorem replace_neuron_owner_top_stake_cex :
    (exSubnet 1 (fun _ => -1)).keys 0 0 = some 1 ∧
    (exSubnet 1 (fun _ => -1)).subnetOwner 0 =
      (exSubnet 1 (fun _ => -1)).owningColdkey 1 ∧
    get_subnetwork_n (exSubnet 1 (fun _ => -1)) 0 = 1 ∧
    (replace_neuron (exSubnet 1 (fun _ => -1)) 0 0 2 9).keys 0 0 = some 2 ∧
    (replace_neuron (exSubnet 1 (fun _ => -1)) 0 0 2 9).uids 0 1 = none := by
  decide

/-- Witness for claim C1: a concrete one-slot subnet whose occupant is the
owner's strict-maximum hotkey with stake weight `0 > -1`; `replace_neuron`
leaves the state unchanged. -/
theorem replace_neuron_owner_top_stake_noop_witness :
    replace_neuron (exSubnet 1 (fun _ => 0)) 0 0 2 9 =
      exSubnet 1 (fun _ => 0) :=
  replace_neuron_owner_top_stake_noop (exSubnet 1 (fun _ => 0)) 0 0 1 2 9
    (by decide) (by decide) (by decide) (by decide)
    (by
      intro u hk hu hkey _ hne
      rw [show get_subnetwork_n (exSubnet 1 (fun _ => 0)) 0 = 1 from rfl]
        at hu
      interval_cases u
      rw [show (exSubnet 1 (fun _ => 0)).keys 0 0 = some 1 from rfl] at hkey
      exact absurd (Option.some.inj hkey).symm hne)

/-- Claim C7 (amended): the scan compares with strictly-greater over
increasing uids, so when two or more of the owner's hotkeys tie for the
maximum stake weight AND that maximum exceeds the `-1` sentinel, the tied
hotkey at the smallest uid is selected as top; `replace_neuron` skips only
that hotkey's uid and still evicts the occupant of any other uid. -/
theorem replace_neuron_tie_break_first_uid (st : SubnetState)
    (netuid u1 u2 occ occ2 new_hotkey block_number : Nat)
    (hu1 : u1 < get_subnetwork_n st netuid)
    (_hu2 : u2 < get_subnetwork_n st netuid)
    (hkey1 : st.keys netuid u1 = some occ)
    (hkey2 : st.keys netuid u2 = some occ2)
    (hne : occ2 ≠ occ)
    (hown1 : st.subnetOwner netuid = st.owningColdkey occ)
    (_hown2 : st.subnetOwner netuid = st.owningColdkey occ2)
    (_htie : st.stakeWeights occ2 netuid = st.stakeWeights occ netuid)
    (hsent : (-1 : ℚ) < st.stakeWeights occ netuid)
    (hbefore : ∀ u hk, u < u1 → st.keys netuid u = some hk →
      st.subnetOwner netuid = st.owningColdkey hk → hk ≠ occ →
      st.stakeWeights hk netuid < st.stakeWeights occ netuid)
    (hall : ∀ u hk, u < get_subnetwork_n st netuid →
      st.keys netuid u = some hk →
      st.subnetOwner netuid = st.owningColdkey hk →
      st.stakeWeights hk netuid ≤ st.stakeWeights occ netuid) :
    topStakeScan st netuid = some occ ∧
    replace_neuron st netuid u1 new_hotkey block_number = st ∧
    (replace_neuron st netuid u2 new_hotkey block_number).keys netuid u2 =
      some new_hotkey := by
  have hscan : topStakeScan st netuid = some occ :=
    topStakeScan_first_max st netuid occ u1 hu1 hkey1 hown1 hsent hbefore
      hall
  refine ⟨hscan, ?_, ?_⟩
  · unfold replace_neuron
    simp only [hscan, hkey1, Option.getD_some, if_pos rfl, if_true]
  · unfold replace_neuron
    simp only [hscan, hkey2, Option.getD_some]
    rw [if_neg (fun h => hne h.symm)]
    exact replace_neuron_mutate_keys st netuid u2 occ2 new_hotkey
      block_number

/-- Claim C7 counterexample: in a two-slot subnet whose owner hotkeys 1 (uid
0) and 2 (uid 1) tie for the maximum stake weight at `-1`, the scan selects
no hotkey at all — in particular not the one at the smallest uid — and the
smallest-uid tied hotkey is not protected: `replace_neuron` at uid 0 evicts
hotkey 1 and installs hotkey 3. -/
theorem replace_neuron_tie_break_cex :
    topStakeScan (exSubnet 2 (fun _ => -1)) 0 = none ∧
    (replace_neuron (exSubnet 2 (fun _ => -1)) 0 0 3 9).keys 0 0 =
      some 3 := by
  decide

/-- Witness for claim C7: a concrete two-slot subnet with owner hotkeys 1
and 2 tied at stake weight `0 > -1`; the scan selects hotkey 1 (smallest
uid), `replace_neuron` at uid 0 is a no-op, and `replace_neuron` at uid 1
still evicts hotkey 2. -/
theorem replace_neuron_tie_break_first_uid_witness :
    topStakeScan (exSubnet 2 (fun _ => 0)) 0 = some 1 ∧
    replace_neuron (exSubnet 2 (fun _ => 0)) 0 0 3 9 =
      exSubnet 2 (fun _ => 0) ∧
    (replace_neuron (exSubnet 2 (fun _ => 0)) 0 1 3 9).keys 0 1 =
      some 3 :=
  replace_neuron_tie_break_first_uid (exSubnet 2 (fun _ => 0)) 0 0 1 1 2 3 9
    (by decide) (by decide) (by decide) (by decide) (by decide) (by decide)
    (by decide) (by decide) (by decide)
    (fun u hk hu _ _ _ => absurd hu (Nat.not_lt_zero u))
    (fun u hk _ _ _ => le_refl 0)

/-- The lengths of the eleven per-slot metric vectors of a subnet. -/
def metricLengths (st : SubnetState) (netuid : Nat) : List Nat :=
  [(st.rank netuid).length, (st.trust netuid).length,
   (st.active netuid).length, (st.emission netuid).length,
   (st.consensus netuid).length, (st.incentive netuid).length,
   (st.dividends netuid).length, (st.lastUpdate netuid).length,
   (st.pruningScores netuid).length, (st.validatorTrust netuid).length,
   (st.validatorPermit netuid).length]

/-- Claim C4 (amended): `append_neuron` assigns uid equal to the current
slot count, sets the slot count to `min (count + 1) 65535` (`u16` saturating
add — a strict increase exactly when the count is below 65535), pushes
exactly one default element onto each of the eleven per-slot metric vectors
(rank 0, trust 0, active true, emission 0, consensus 0, incentive 0,
dividends 0, last-update = block number, pruning score 0, validator-trust 0,
validator-permit false), establishes the uid-to-hotkey and hotkey-to-uid
mappings plus the membership flag and registration block, and keeps the
eleven metric vectors equal-length whenever they were equal-length. -/
theorem append_neuron_spec (st : SubnetState)
    (netuid new_hotkey block_number : Nat) :
    (append_neuron st netuid new_hotkey block_number).keys netuid
      (get_subnetwork_n st netuid) = some new_hotkey ∧
    (append_neuron st netuid new_hotkey block_number).uids netuid
      new_hotkey = some (get_subnetwork_n st netuid) ∧
    (append_neuron st netuid new_hotkey block_number).isNetworkMember
      new_hotkey netuid = some true ∧
    (append_neuron st netuid new_hotkey block_number).blockAtRegistration
      netuid (get_subnetwork_n st netuid) = block_number ∧
    (append_neuron st netuid new_hotkey block_number).subnetworkN netuid =
      min (get_subnetwork_n st netuid + 1) U16MAX ∧
    (get_subnetwork_n st netuid < U16MAX →
      (append_neuron st netuid new_hotkey block_number).subnetworkN netuid =
        get_subnetwork_n st netuid + 1) ∧
    (append_neuron st netuid new_hotkey block_number).rank netuid =
      st.rank netuid ++ [0] ∧
    (append_neuron st netuid new_hotkey block_number).trust netuid =
      st.trust netuid ++ [0] ∧
    (append_neuron st netuid new_hotkey block_number).active netuid =
      st.active netuid ++ [true] ∧
    (append_neuron st netuid new_hotkey block_number).emission netuid =
      st.emission netuid ++ [0] ∧
    (append_neuron st netuid new_hotkey block_number).consensus netuid =
      st.consensus netuid ++ [0] ∧
    (append_neuron st netuid new_hotkey block_number).incentive netuid =
      st.incentive netuid ++ [0] ∧
    (append_neuron st netuid new_hotkey block_number).dividends netuid =
      st.dividends netuid ++ [0] ∧
    (append_neuron st netuid new_hotkey block_number).lastUpdate netuid =
      st.lastUpdate netuid ++ [block_number] ∧
    (append_neuron st netuid new_hotkey block_number).pruningScores netuid =
      st.pruningScores netuid ++ [0] ∧
    (append_neuron st netuid new_hotkey block_number).validatorTrust
      netuid = st.validatorTrust netuid ++ [0] ∧
    (append_neuron st netuid new_hotkey block_number).validatorPermit
      netuid = st.validatorPermit netuid ++ [false] ∧
    metricLengths (append_neuron st netuid new_hotkey block_number) netuid =
      (metricLengths st netuid).map (fun x => x + 1) ∧
    (∀ k, metricLengths st netuid = List.replicate 11 k →
      metricLengths (append_neuron st netuid new_hotkey block_number)
        netuid = List.replicate 11 (k + 1)) := by
  have hmap : metricLengths (append_neuron st netuid new_hotkey
      block_number) netuid = (metricLengths st netuid).map (fun x => x + 1)
      := by
    simp [metricLengths, append_neuron]
  refine ⟨?_, ?_, ?_, ?_, ?_, ?_, ?_, ?_, ?_, ?_, ?_, ?_, ?_, ?_, ?_, ?_,
    ?_, hmap, ?_⟩
  · simp [append_neuron, get_subnetwork_n]
  · simp [append_neuron, get_subnetwork_n]
  · simp [append_neuron, get_subnetwork_n]
  · simp [append_neuron, get_subnetwork_n]
  · simp [append_neuron, get_subnetwork_n]
  · intro h
    rw [show (append_neuron st netuid new_hotkey block_number).subnetworkN
        netuid = min (get_subnetwork_n st netuid + 1) U16MAX from by
      simp [append_neuron, get_subnetwork_n]]
    exact min_eq_left (by omega)
  · simp [append_neuron]
  · simp [append_neuron]
  · simp [append_neuron]
  · simp [append_neuron]
  · simp [append_neuron]
  · simp [append_neuron]
  · simp [append_neuron]
  · simp [append_neuron]
  · simp [append_neuron]
  · simp [append_neuron]
  · simp [append_neuron]
  · intro k hk
    rw [hmap, hk, List.map_replicate]

/-- Minimal concrete state whose slot counter already sits at the `u16`
maximum. -/
def ex4St : SubnetState where
  subnetworkN := fun _ => 65535
  keys := fun _ _ => none
  uids := fun _ _ => none
  isNetworkMember := fun _ _ => none
  rank := fun _ => []
  trust := fun _ => []
  active := fun _ => []
  emission := fun _ => []
  consensus := fun _ => []
  incentive := fun _ => []
  dividends := fun _ => []
  lastUpdate := fun _ => []
  pruningScores := fun _ => []
  validatorTrust := fun _ => []
  validatorPermit := fun _ => []
  blockAtRegistration := fun _ _ => 0
  neuronCertificates := fun _ _ => none
  axons := fun _ _ => none
  owningColdkey := fun _ => 0
  subnetOwner := fun _ => 0
  stakeWeights := fun _ _ => 0

/-- Claim C4 counterexample: with the slot count already at the `u16`
maximum 65535, `append_neuron` does not strictly increase the count — the
`saturating_add` leaves it at 65535. -/
theorem append_neuron_count_saturation_cex :
    ex4St.subnetworkN 0 = 65535 ∧
    (append_neuron ex4St 0 1 5).subnetworkN 0 = 65535 := by
  decide

/-- Witness for claim C4: on a concrete one-slot subnet the count strictly
increases from 1 to 2 and all eleven metric vectors go from length 1 to
length 2. -/
theorem append_neuron_spec_witness :
    (append_neuron (exSubnet 1 (fun _ => 0)) 0 5 3).subnetworkN 0 = 2 ∧
    metricLengths (append_neuron (exSubnet 1 (fun _ => 0)) 0 5 3) 0 =
      List.replicate 11 2 := by
  obtain ⟨-, -, -, -, -, h6, -, -, -, -, -, -, -, -, -, -, -, -, hrep⟩ :=
    append_neuron_spec (exSubnet 1 (fun _ => 0)) 0 5 3
  exact ⟨h6 (by decide), hrep 1 (by decide)⟩

/-- Claim C5 (amended): `clear_neuron` resets exactly the emission, trust,
consensus, incentive and dividends entries at the given position to zero
(via `set_element_at`), and leaves every other per-slot field — rank,
active, last-update, pruning score, validator-trust, validator-permit — and
all other storage unchanged. -/
theorem clear_neuron_resets_exactly (st : SubnetState)
    (netuid neuron_uid : Nat) :
    (clear_neuron st netuid neuron_uid).emission netuid =
      set_element_at (st.emission netuid) neuron_uid 0 ∧
    (clear_neuron st netuid neuron_uid).trust netuid =
      set_element_at (st.trust netuid) neuron_uid 0 ∧
    (clear_neuron st netuid neuron_uid).consensus netuid =
      set_element_at (st.consensus netuid) neuron_uid 0 ∧
    (clear_neuron st netuid neuron_uid).incentive netuid =
      set_element_at (st.incentive netuid) neuron_uid 0 ∧
    (clear_neuron st netuid neuron_uid).dividends netuid =
      set_element_at (st.dividends netuid) neuron_uid 0 ∧
    (clear_neuron st netuid neuron_uid).rank = st.rank ∧
    (clear_neuron st netuid neuron_uid).active = st.active ∧
    (clear_neuron st netuid neuron_uid).lastUpdate = st.lastUpdate ∧
    (clear_neuron st netuid neuron_uid).pruningScores = st.pruningScores ∧
    (clear_neuron st netuid neuron_uid).validatorTrust =
      st.validatorTrust ∧
    (clear_neuron st netuid neuron_uid).validatorPermit =
      st.validatorPermit ∧
    (clear_neuron st netuid neuron_uid).subnetworkN = st.subnetworkN ∧
    (clear_neuron st netuid neuron_uid).keys = st.keys ∧
    (clear_neuron st netuid neuron_uid).uids = st.uids ∧
    (clear_neuron st netuid neuron_uid).isNetworkMember =
      st.isNetworkMember ∧
    (clear_neuron st netuid neuron_uid).blockAtRegistration =
      st.blockAtRegistration ∧
    (clear_neuron st netuid neuron_uid).neuronCertificates =
      st.neuronCertificates ∧
    (clear_neuron st netuid neuron_uid).axons = st.axons := by
  refine ⟨?_, ?_, ?_, ?_, ?_, rfl, rfl, rfl, rfl, rfl, rfl, rfl, rfl, rfl,
    rfl, rfl, rfl, rfl⟩ <;> simp [clear_neuron]

/-- Concrete one-slot subnet with distinct metric values at uid 0, used to
separate the fields `clear_neuron` touches from those it leaves alone. -/
def ex5St : SubnetState where
  subnetworkN := fun _ => 1
  keys := fun m u => if m = 0 ∧ u = 0 then some 1 else none
  uids := fun m h => if m = 0 ∧ h = 1 then some 0 else none
  isNetworkMember := fun h m => if h = 1 ∧ m = 0 then some true else none
  rank := fun _ => [5]
  trust := fun _ => [6]
  active := fun _ => [true]
  emission := fun _ => [7]
  consensus := fun _ => [8]
  incentive := fun _ => [9]
  dividends := fun _ => [10]
  lastUpdate := fun _ => [11]
  pruningScores := fun _ => [12]
  validatorTrust := fun _ => [13]
  validatorPermit := fun _ => [true]
  blockAtRegistration := fun _ _ => 0
  neuronCertificates := fun _ _ => none
  axons := fun _ _ => none
  owningColdkey := fun _ => 7
  subnetOwner := fun _ => 7
  stakeWeights := fun _ _ => 0

/-- Claim C5 counterexample: `clear_neuron` at uid 0 of `ex5St` leaves the
rank entry at 5 (the claim says rank is reset to zero) and zeroes the
emission entry from 7 (the claim says only rank, trust, consensus,
incentive, dividends are reset, leaving everything else unchanged). -/
theorem clear_neuron_resets_cex :
    ex5St.rank 0 = [5] ∧ (clear_neuron ex5St 0 0).rank 0 = [5] ∧
    ex5St.emission 0 = [7] ∧ (clear_neuron ex5St 0 0).emission 0 = [0] := by
  decide

/-- `set_element_at` at a position not below the list's length returns the
list unchanged. -/
lemma set_element_at_of_length_le {N : Type} :
    ∀ (l : List N) (position : Nat) (value : N), l.length ≤ position →
      set_element_at l position value = l
  | [], _, _, _ => rfl
  | _ :: _, 0, _, h => by simp at h
  | x :: xs, p + 1, v, h => by
    simp only [set_element_at]
    rw [set_element_at_of_length_le xs p v (by simpa using h)]

/-- Claim C9: `set_element_at` is total — at a position at least the slice
length it changes nothing — so `clear_neuron` invoked with a uid outside
the bounds of all five cleared metric vectors returns the state unchanged:
no panic, no growth, no write. -/
theorem set_element_at_out_of_bounds_noop (st : SubnetState)
    (netuid uid : Nat) (l : List Nat) (position : Nat) (value : Nat)
    (hp : l.length ≤ position)
    (he : (st.emission netuid).length ≤ uid)
    (ht : (st.trust netuid).length ≤ uid)
    (hc : (st.consensus netuid).length ≤ uid)
    (hi : (st.incentive netuid).length ≤ uid)
    (hd : (st.dividends netuid).length ≤ uid) :
    set_element_at l position value = l ∧
    clear_neuron st netuid uid = st := by
  refine ⟨set_element_at_of_length_le l position value hp, ?_⟩
  have hem : (fun n => if n = netuid then
      set_element_at (st.emission n) uid 0 else st.emission n) =
      st.emission := funext fun n => by
    by_cases h : n = netuid
    · subst h; rw [if_pos rfl]; exact set_element_at_of_length_le _ _ _ he
    · rw [if_neg h]
  have htr : (fun n => if n = netuid then
      set_element_at (st.trust n) uid 0 else st.trust n) = st.trust :=
      funext fun n => by
    by_cases h : n = netuid
    · subst h; rw [if_pos rfl]; exact set_element_at_of_length_le _ _ _ ht
    · rw [if_neg h]
  have hcs : (fun n => if n = netuid then
      set_element_at (st.consensus n) uid 0 else st.consensus n) =
      st.consensus := funext fun n => by
    by_cases h : n = netuid
    · subst h; rw [if_pos rfl]; exact set_element_at_of_length_le _ _ _ hc
    · rw [if_neg h]
  have hic : (fun n => if n = netuid then
      set_element_at (st.incentive n) uid 0 else st.incentive n) =
      st.incentive := funext fun n => by
    by_cases h : n = netuid
    · subst h; rw [if_pos rfl]; exact set_element_at_of_length_le _ _ _ hi
    · rw [if_neg h]
  have hdv : (fun n => if n = netuid then
      set_element_at (st.dividends n) uid 0 else st.dividends n) =
      st.dividends := funext fun n => by
    by_cases h : n = netuid
    · subst h; rw [if_pos rfl]; exact set_element_at_of_length_le _ _ _ hd
    · rw [if_neg h]
  unfold clear_neuron
  rw [hem, htr, hcs, hic, hdv]

/-- Witness for claim C9: a concrete out-of-bounds write is a no-op and a
concrete out-of-bounds `clear_neuron` returns the state unchanged. -/
theorem set_element_at_out_of_bounds_noop_witness :
    set_element_at [1, 2] 7 9 = [1, 2] ∧
    clear_neuron (exSubnet 1 (fun _ => 0)) 0 5 = exSubnet 1 (fun _ => 0) :=
  set_element_at_out_of_bounds_noop (exSubnet 1 (fun _ => 0)) 0 5 [1, 2] 7 9
    (by decide) (by decide) (by decide) (by decide) (by decide) (by decide)

/-- The `u64` saturation bound. -/
def U64MAX : Nat := 18446744073709551615

/-- `u64::saturating_add`. -/
def satAdd64 (a b : Nat) : Nat := min (a + b) U64MAX

/-- Storage touched by `remove_stake.rs`.  The entry points only reach the
stake ledger through the collaborator primitives below; the fields
`registered` (hotkey has a registration anywhere), `associated` (the coldkey
owns or has nominated the hotkey), `rateLimited` (the per-block rate limit
for this operation type has been hit), the thresholds and fee, the pricing
maps `alphaToTao` / `taoToAlpha` (the subnet pricing collaborator), and the
ledgers themselves are all storage outside the embedded file. -/
structure StakeState where
  netuids : List Nat
  rootNetuid : Nat
  registered : Nat → Bool
  associated : Nat → Nat → Bool
  rateLimited : Nat → Bool
  defaultStakingFee : Nat
  stakeThreshold : Nat
  nominationThreshold : Nat
  stake : Nat → Nat → Nat → Nat
  totalHotkeyStake : Nat → Nat
  balance : Nat → Nat
  pendingChildKeys : Nat → Nat → Bool
  alphaToTao : Nat → Nat → Nat
  taoToAlpha : Nat → Nat → Nat

/-- `get_all_subnet_netuids` (outside the embedded file): the list of all
subnet netuids. -/
def get_all_subnet_netuids (st : StakeState) : List Nat := st.netuids

/-- `get_root_netuid` (outside the embedded file): the designated root
subnet. -/
def get_root_netuid (st : StakeState) : Nat := st.rootNetuid

/-- `get_stake_for_hotkey_and_coldkey_on_subnet` (outside the embedded
file): point lookup of the (hotkey, coldkey, netuid) stake entry. -/
def get_stake_for_hotkey_and_coldkey_on_subnet (st : StakeState)
    (hotkey coldkey netuid : Nat) : Nat :=
  st.stake hotkey coldkey netuid

/-- `get_total_stake_for_hotkey` (outside the embedded file): the
incremental aggregate of a hotkey's stake across all coldkeys and
subnets. -/
def get_total_stake_for_hotkey (st : StakeState) (hotkey : Nat) : Nat :=
  st.totalHotkeyStake hotkey

/-- Modelled from the spec: `hotkey_account_exists` is not under `src/`;
spec section 4.2 states `unstake_all` "fails only if the hotkey is not
registered anywhere", so the check is modelled as the registered-anywhere
flag. -/
def hotkey_account_exists (st : StakeState) (hotkey : Nat) : Bool :=
  st.registered hotkey

/-- Modelled from the spec: `unstake_from_subnet` is not under `src/`; spec
section 4.1: it debits the stake entry saturating at zero (never negative),
updates the aggregates incrementally, and returns the TAO conversion (via
the subnet pricing collaborator) of the debited alpha minus the fee. -/
def unstake_from_subnet (st : StakeState)
    (hotkey coldkey netuid alpha_amount fee : Nat) : StakeState × Nat :=
  let cur := st.stake hotkey coldkey netuid
  let debited := min alpha_amount cur
  ({ st with
      stake := fun h c n =>
        if h = hotkey ∧ c = coldkey ∧ n = netuid then cur - debited
        else st.stake h c n
      totalHotkeyStake := fun h =>
        if h = hotkey then st.totalHotkeyStake h - debited
        else st.totalHotkeyStake h },
    st.alphaToTao netuid debited - fee)

/-- Modelled from the spec: `stake_into_subnet` is not under `src/`; spec
section 4.1: it converts TAO to the subnet's alpha unit via the pricing
collaborator after deducting the fee, credits the stake entry and the
aggregates (saturating per spec section 5), never fails, and an amount of
zero is a no-op. -/
def stake_into_subnet (st : StakeState)
    (hotkey coldkey netuid tao_amount fee : Nat) : StakeState :=
  if tao_amount = 0 then st
  else
    let alpha := st.taoToAlpha netuid (tao_amount - fee)
    { st with
        stake := fun h c n =>
          if h = hotkey ∧ c = coldkey ∧ n = netuid then
            satAdd64 (st.stake h c n) alpha
          else st.stake h c n
        totalHotkeyStake := fun h =>
          if h = hotkey then satAdd64 (st.totalHotkeyStake h) alpha
          else st.totalHotkeyStake h }

/-- Modelled from the spec: `add_balance_to_coldkey_account` is not under
`src/`; it credits the coldkey's free balance (saturating per spec
section 5). -/
def add_balance_to_coldkey_account (st : StakeState)
    (coldkey amount : Nat) : StakeState :=
  { st with
      balance := fun c =>
        if c = coldkey then satAdd64 (st.balance c) amount
        else st.balance c }

/-- Modelled from the spec: `clear_small_nomination_if_required` is not
under `src/`; spec sections 3 and 4.2: a nonzero stake entry strictly below
the minimum nomination threshold is fully withdrawn and zeroed, the residual
value returned to the coldkey's free balance. -/
def clear_small_nomination_if_required (st : StakeState)
    (hotkey coldkey netuid : Nat) : StakeState :=
  let cur := st.stake hotkey coldkey netuid
  if 0 < cur ∧ cur < st.nominationThreshold then
    add_balance_to_coldkey_account
      (unstake_from_subnet st hotkey coldkey netuid cur 0).1 coldkey
      (st.alphaToTao netuid cur)
  else st

/-- Modelled from the spec: `validate_remove_stake` is not under `src/`;
spec section 4.2 lists the preconditions of `remove_stake` in order, each
with its error kind: hotkey registered somewhere (`NotRegistered`), signer
coldkey owns or has nominated the hotkey (`NonAssociatedColdKey`), stake
entry holds at least the requested amount (`NotEnoughStakeToWithdraw`), and
the per-block rate limit is not exceeded (`TxRateLimitExceeded`). -/
def validate_remove_stake (st : StakeState)
    (coldkey hotkey netuid alpha_amount : Nat) : Option SubtensorError :=
  if !st.registered hotkey then some SubtensorError.NotRegistered
  else if !st.associated coldkey hotkey then
    some SubtensorError.NonAssociatedColdKey
  else if st.stake hotkey coldkey netuid < alpha_amount then
    some SubtensorError.NotEnoughStakeToWithdraw
  else if st.rateLimited coldkey then some SubtensorError.TxRateLimitExceeded
  else none

/-- `do_remove_stake`: validate, then unstake the alpha from the subnet,
credit the TAO to the coldkey, clear a small nomination if required, and —
if the hotkey's total stake dropped below `StakeThreshold` — remove the
hotkey's pending child keys on every subnet.  The origin is embedded as the
already-`ensure_signed` coldkey.  The result pairs the post-state with an
optional error; on an error the returned state is the state at the early
return. -/
def do_remove_stake (st : StakeState)
    (coldkey hotkey netuid alpha_unstaked : Nat) :
    StakeState × Option SubtensorError :=
  match validate_remove_stake st coldkey hotkey netuid alpha_unstaked with
  | some e => (st, some e)
  | none =>
    let fee := st.defaultStakingFee
    let res := unstake_from_subnet st hotkey coldkey netuid alpha_unstaked
      fee
    let st2 := add_balance_to_coldkey_account res.1 coldkey res.2
    let st3 := clear_small_nomination_if_required st2 hotkey coldkey netuid
    let st4 :=
      if get_total_stake_for_hotkey st3 hotkey < st3.stakeThreshold then
        (get_all_subnet_netuids st3).foldl (fun s n =>
          { s with
              pendingChildKeys := fun m h =>
                if m = n ∧ h = hotkey then false
                else s.pendingChildKeys m h }) st3
      else st3
    (st4, none)

/-- The `for netuid in netuids.iter()` loop of `do_unstake_all` (step 4):
for each subnet, read the (hotkey, coldkey) stake; if positive, unstake it,
credit the TAO to the coldkey, and clear a small nomination if required. -/
def unstake_all_iter (fee coldkey hotkey : Nat) :
    List Nat → StakeState → StakeState
  | [], s => s
  | netuid :: rest, s =>
    let alpha_unstaked :=
      get_stake_for_hotkey_and_coldkey_on_subnet s hotkey coldkey netuid
    if 0 < alpha_unstaked then
      let res := unstake_from_subnet s hotkey coldkey netuid alpha_unstaked
        fee
      let s2 := add_balance_to_coldkey_account res.1 coldkey res.2
      let s3 := clear_small_nomination_if_required s2 hotkey coldkey netuid
      unstake_all_iter fee coldkey hotkey rest s3
    else unstake_all_iter fee coldkey hotkey rest s

/-- `do_unstake_all`: ensure the hotkey account exists, then run the
per-subnet unstake loop over all netuids. -/
def do_unstake_all (st : StakeState) (coldkey hotkey : Nat) :
    StakeState × Option SubtensorError :=
  let fee := st.defaultStakingFee
  if !hotkey_account_exists st hotkey then
    (st, some SubtensorError.HotKeyAccountNotExists)
  else
    (unstake_all_iter fee coldkey hotkey (get_all_subnet_netuids st) st,
      none)

/-- The `for netuid in netuids.iter()` loop of `do_unstake_all_alpha`
(step 4): skip the root netuid; for each other subnet with positive stake,
unstake it, accumulate the TAO with `u64::saturating_add`, and clear a small
nomination if required. -/
def unstake_all_alpha_iter (fee coldkey hotkey root : Nat) :
    List Nat → StakeState × Nat → StakeState × Nat
  | [], p => p
  | netuid :: rest, p =>
    if netuid ≠ root then
      let alpha_unstaked :=
        get_stake_for_hotkey_and_coldkey_on_subnet p.1 hotkey coldkey netuid
      if 0 < alpha_unstaked then
        let res := unstake_from_subnet p.1 hotkey coldkey netuid
          alpha_unstaked fee
        let total := satAdd64 p.2 res.2
        let s2 := clear_small_nomination_if_required res.1 hotkey coldkey
          netuid
        unstake_all_alpha_iter fee coldkey hotkey root rest (s2, total)
      else unstake_all_alpha_iter fee coldkey hotkey root rest p
    else unstake_all_alpha_iter fee coldkey hotkey root rest p

/-- `do_unstake_all_alpha`: ensure the hotkey account exists, run the
root-excluding per-subnet unstake loop accumulating the unstaked TAO, then
unconditionally stake the accumulated total into the root subnet for the
same (hotkey, coldkey) pair with zero fee. -/
def do_unstake_all_alpha (st : StakeState) (coldkey hotkey : Nat) :
    StakeState × Option SubtensorError :=
  let fee := st.defaultStakingFee
  if !hotkey_account_exists st hotkey then
    (st, some SubtensorError.HotKeyAccountNotExists)
  else
    let p := unstake_all_alpha_iter fee coldkey hotkey (get_root_netuid st)
      (get_all_subnet_netuids st) (st, 0)
    (stake_into_subnet p.1 hotkey coldkey (get_root_netuid st) p.2 0, none)

/-- `get_max_amount_remove`: the placeholder price-limit computation —
returns 0 for every input. -/
def get_max_amount_remove (_netuid _limit_price : Nat) : Nat := 0

/-- `do_remove_stake_limit`: computes the placeholder maximum executable
amount, performs no checks (the source's TODO) and no mutation, and returns
Ok. -/
def do_remove_stake_limit (st : StakeState)
    (_coldkey _hotkey netuid _stake_to_be_added limit_price : Nat) :
    StakeState × Option SubtensorError :=
  let _max_amount := get_max_amount_remove netuid limit_price
  (st, none)

/-- Specification-side loop for `unstake_all` (spec section 4.2 wording):
iterate every subnet the network knows about; for each where the
(hotkey, coldkey) stake is nonzero, perform the unstake + credit + cleanup
sequence; a zero-stake subnet is silently skipped. -/
def unstake_all_spec_loop (fee coldkey hotkey : Nat) :
    List Nat → StakeState → StakeState
  | [], s => s
  | netuid :: rest, s =>
    unstake_all_spec_loop fee coldkey hotkey rest
      (if s.stake hotkey coldkey netuid ≠ 0 then
        clear_small_nomination_if_required
          (add_balance_to_coldkey_account
            (unstake_from_subnet s hotkey coldkey netuid
              (s.stake hotkey coldkey netuid) fee).1
            coldkey
            (unstake_from_subnet s hotkey coldkey netuid
              (s.stake hotkey coldkey netuid) fee).2)
          hotkey coldkey netuid
      else s)

/-- The code loop of `do_unstake_all` computes exactly the spec-side
loop. -/
lemma unstake_all_iter_eq_spec (fee coldkey hotkey : Nat) :
    ∀ (l : List Nat) (s : StakeState),
      unstake_all_iter fee coldkey hotkey l s =
        unstake_all_spec_loop fee coldkey hotkey l s
  | [], _ => rfl
  | netuid :: rest, s => by
    unfold unstake_all_iter unstake_all_spec_loop
      get_stake_for_hotkey_and_coldkey_on_subnet
    by_cases h : 0 < s.stake hotkey coldkey netuid
    · rw [if_pos h, if_pos (by omega)]
      exact unstake_all_iter_eq_spec fee coldkey hotkey rest _
    · rw [if_neg h, if_neg (by omega)]
      exact unstake_all_iter_eq_spec fee coldkey hotkey rest s

/-- Claim C6: `do_unstake_all` fails exactly when the hotkey is not
registered anywhere — returning `HotKeyAccountNotExists` with the state
unchanged — and otherwise succeeds, performing for each nonzero-stake subnet
the unstake + credit-to-coldkey + small-nomination-cleanup sequence and
silently skipping every zero-stake subnet. -/
theorem do_unstake_all_spec (st : StakeState) (coldkey hotkey : Nat) :
    (st.registered hotkey = false →
      do_unstake_all st coldkey hotkey =
        (st, some SubtensorError.HotKeyAccountNotExists)) ∧
    (st.registered hotkey = true →
      do_unstake_all st coldkey hotkey =
        (unstake_all_spec_loop st.defaultStakingFee coldkey hotkey
          st.netuids st, none)) := by
  constructor
  · intro h
    unfold do_unstake_all hotkey_account_exists
    rw [h]
    rfl
  · intro h
    unfold do_unstake_all hotkey_account_exists
    rw [h]
    show (unstake_all_iter _ _ _ _ _, _) = _
    rw [unstake_all_iter_eq_spec]
    rfl

/-- Concrete staking state: subnets `[0, 1, 2]` with root `0`; hotkey 1 is
registered and associated with coldkey 2; coldkey 2 has stake 100 on subnet
1 and 50 on subnet 2 through hotkey 1; conversions are the identity and the
fee is 1. -/
def exStake : StakeState where
  netuids := [0, 1, 2]
  rootNetuid := 0
  registered := fun h => h == 1
  associated := fun c h => c == 2 && h == 1
  rateLimited := fun _ => false
  defaultStakingFee := 1
  stakeThreshold := 10
  nominationThreshold := 2
  stake := fun h c n =>
    if h = 1 ∧ c = 2 ∧ n = 1 then 100
    else if h = 1 ∧ c = 2 ∧ n = 2 then 50 else 0
  totalHotkeyStake := fun h => if h = 1 then 150 else 0
  balance := fun _ => 0
  pendingChildKeys := fun _ _ => false
  alphaToTao := fun _ a => a
  taoToAlpha := fun _ t => t

/-- Witness for claim C6: on `exStake` the registered hotkey 1 succeeds and
the result is exactly the spec-side loop; the unregistered hotkey 5 fails
with `HotKeyAccountNotExists` and the state is unchanged. -/
theorem do_unstake_all_spec_witness :
    do_unstake_all exStake 2 1 =
      (unstake_all_spec_loop exStake.defaultStakingFee 2 1 exStake.netuids
        exStake, none) ∧
    do_unstake_all exStake 2 5 =
      (exStake, some SubtensorError.HotKeyAccountNotExists) :=
  ⟨(do_unstake_all_spec exStake 2 1).2 (by decide),
   (do_unstake_all_spec exStake 2 5).1 (by decide)⟩

/-- Specification-side loop for `unstake_all_alpha` (spec section 4.2
wording): the same iteration but excluding the designated root subnet;
each nonzero (hotkey, coldkey) stake entry is unstaked (with the
small-nomination cleanup) and the unstaked TAO amounts are summed
(saturating, per spec section 5's arithmetic policy). -/
def unstake_all_alpha_spec_loop (fee coldkey hotkey root : Nat) :
    List Nat → StakeState × Nat → StakeState × Nat
  | [], p => p
  | netuid :: rest, p =>
    unstake_all_alpha_spec_loop fee coldkey hotkey root rest
      (if netuid = root then p
      else if p.1.stake hotkey coldkey netuid = 0 then p
      else
        (clear_small_nomination_if_required
          (unstake_from_subnet p.1 hotkey coldkey netuid
            (p.1.stake hotkey coldkey netuid) fee).1 hotkey coldkey netuid,
         satAdd64 p.2
          (unstake_from_subnet p.1 hotkey coldkey netuid
            (p.1.stake hotkey coldkey netuid) fee).2))

/-- The code loop of `do_unstake_all_alpha` computes exactly the spec-side
loop. -/
lemma unstake_all_alpha_iter_eq_spec (fee coldkey hotkey root : Nat) :
    ∀ (l : List Nat) (p : StakeState × Nat),
      unstake_all_alpha_iter fee coldkey hotkey root l p =
        unstake_all_alpha_spec_loop fee coldkey hotkey root l p
  | [], _ => rfl
  | netuid :: rest, p => by
    unfold unstake_all_alpha_iter unstake_all_alpha_spec_loop
      get_stake_for_hotkey_and_coldkey_on_subnet
    by_cases hr : netuid = root
    · rw [if_neg (by simp [hr]), if_pos hr]
      exact unstake_all_alpha_iter_eq_spec fee coldkey hotkey root rest p
    · rw [if_pos hr, if_neg hr]
      by_cases h : 0 < p.1.stake hotkey coldkey netuid
      · rw [if_pos h, if_neg (by omega)]
        exact unstake_all_alpha_iter_eq_spec fee coldkey hotkey root rest _
      · rw [if_neg h, if_pos (by omega)]
        exact unstake_all_alpha_iter_eq_spec fee coldkey hotkey root rest p

/-- Claim C2: for a registered hotkey, `do_unstake_all_alpha` succeeds and
equals the spec-side computation: iterate all subnets excluding the root
subnet, unstake each nonzero (hotkey, coldkey) stake entry, sum the
unstaked TAO, and then — unconditionally, even when the accumulated total
is zero — stake the sum into the root subnet for the same (hotkey, coldkey)
pair with zero fee; an unregistered hotkey fails with the state
unchanged. -/
theorem do_unstake_all_alpha_spec (st : StakeState) (coldkey hotkey : Nat) :
    (st.registered hotkey = false →
      do_unstake_all_alpha st coldkey hotkey =
        (st, some SubtensorError.HotKeyAccountNotExists)) ∧
    (st.registered hotkey = true →
      do_unstake_all_alpha st coldkey hotkey =
        (stake_into_subnet
          (unstake_all_alpha_spec_loop st.defaultStakingFee coldkey hotkey
            st.rootNetuid st.netuids (st, 0)).1
          hotkey coldkey st.rootNetuid
          (unstake_all_alpha_spec_loop st.defaultStakingFee coldkey hotkey
            st.rootNetuid st.netuids (st, 0)).2
          0, none)) := by
  constructor
  · intro h
    unfold do_unstake_all_alpha hotkey_account_exists
    rw [h]
    rfl
  · intro h
    unfold do_unstake_all_alpha hotkey_account_exists
    rw [h]
    show (stake_into_subnet
      (unstake_all_alpha_iter _ _ _ _ _ _).1 _ _ _
      (unstake_all_alpha_iter _ _ _ _ _ _).2 _, _) = _
    rw [unstake_all_alpha_iter_eq_spec]
    rfl

/-- Witness for claim C2: on `exStake` (stake on subnets 1 and 2, root 0)
the registered hotkey 1 succeeds with the spec-side result, and the
unregistered hotkey 5 fails leaving the state unchanged. -/
theorem do_unstake_all_alpha_spec_witness :
    do_unstake_all_alpha exStake 2 1 =
      (stake_into_subnet
        (unstake_all_alpha_spec_loop exStake.defaultStakingFee 2 1
          exStake.rootNetuid exStake.netuids (exStake, 0)).1
        1 2 exStake.rootNetuid
        (unstake_all_alpha_spec_loop exStake.defaultStakingFee 2 1
          exStake.rootNetuid exStake.netuids (exStake, 0)).2
        0, none) ∧
    do_unstake_all_alpha exStake 2 5 =
      (exStake, some SubtensorError.HotKeyAccountNotExists) :=
  ⟨(do_unstake_all_alpha_spec exStake 2 1).2 (by decide),
   (do_unstake_all_alpha_spec exStake 2 5).1 (by decide)⟩

/-- Claim C3: `do_remove_stake` validates all preconditions before any
mutation, in order, returning the specific error kind — `NotRegistered`,
`NonAssociatedColdKey`, `NotEnoughStakeToWithdraw`, `TxRateLimitExceeded` —
and whenever it returns an error the returned state is exactly the pre-call
state (no ledger is touched); when all preconditions pass it succeeds. -/
theorem do_remove_stake_error_spec (st : StakeState)
    (coldkey hotkey netuid alpha_unstaked : Nat) :
    ((do_remove_stake st coldkey hotkey netuid alpha_unstaked).2.isSome →
      (do_remove_stake st coldkey hotkey netuid alpha_unstaked).1 = st) ∧
    (st.registered hotkey = false →
      do_remove_stake st coldkey hotkey netuid alpha_unstaked =
        (st, some SubtensorError.NotRegistered)) ∧
    (st.registered hotkey = true → st.associated coldkey hotkey = false →
      do_remove_stake st coldkey hotkey netuid alpha_unstaked =
        (st, some SubtensorError.NonAssociatedColdKey)) ∧
    (st.registered hotkey = true → st.associated coldkey hotkey = true →
      st.stake hotkey coldkey netuid < alpha_unstaked →
      do_remove_stake st coldkey hotkey netuid alpha_unstaked =
        (st, some SubtensorError.NotEnoughStakeToWithdraw)) ∧
    (st.registered hotkey = true → st.associated coldkey hotkey = true →
      alpha_unstaked ≤ st.stake hotkey coldkey netuid →
      st.rateLimited coldkey = true →
      do_remove_stake st coldkey hotkey netuid alpha_unstaked =
        (st, some SubtensorError.TxRateLimitExceeded)) ∧
    (st.registered hotkey = true → st.associated coldkey hotkey = true →
      alpha_unstaked ≤ st.stake hotkey coldkey netuid →
      st.rateLimited coldkey = false →
      (do_remove_stake st coldkey hotkey netuid alpha_unstaked).2 =
        none) := by
  refine ⟨?_, ?_, ?_, ?_, ?_, ?_⟩
  · intro hs
    by_cases h1 : st.registered hotkey = true
    · by_cases h2 : st.associated coldkey hotkey = true
      · by_cases h3 : st.stake hotkey coldkey netuid < alpha_unstaked
        · simp [do_remove_stake, validate_remove_stake, h1, h2, h3]
        · by_cases h4 : st.rateLimited coldkey = true
          · simp [do_remove_stake, validate_remove_stake, h1, h2, h3, h4]
          · exfalso
            rw [Bool.not_eq_true] at h4
            simp [do_remove_stake, validate_remove_stake, h1, h2, h3, h4]
              at hs
      · rw [Bool.not_eq_true] at h2
        simp [do_remove_stake, validate_remove_stake, h1, h2]
    · rw [Bool.not_eq_true] at h1
      simp [do_remove_stake, validate_remove_stake, h1]
  · intro h1
    simp [do_remove_stake, validate_remove_stake, h1]
  · intro h1 h2
    simp [do_remove_stake, validate_remove_stake, h1, h2]
  · intro h1 h2 h3
    simp [do_remove_stake, validate_remove_stake, h1, h2, h3]
  · intro h1 h2 h3 h4
    simp [do_remove_stake, validate_remove_stake, h1, h2, h4,
      not_lt.mpr h3]
  · intro h1 h2 h3 h4
    simp [do_remove_stake, validate_remove_stake, h1, h2, h4,
      not_lt.mpr h3]

/-- Witness for claim C3: concrete failing inputs on `exStake` produce each
specific error kind with the state unchanged, and a passing input
succeeds. -/
theorem do_remove_stake_error_spec_witness :
    do_remove_stake exStake 2 5 1 10 =
      (exStake, some SubtensorError.NotRegistered) ∧
    do_remove_stake exStake 3 1 1 10 =
      (exStake, some SubtensorError.NonAssociatedColdKey) ∧
    do_remove_stake exStake 2 1 1 1000 =
      (exStake, some SubtensorError.NotEnoughStakeToWithdraw) ∧
    (do_remove_stake exStake 2 1 1 10).2 = none :=
  ⟨(do_remove_stake_error_spec exStake 2 5 1 10).2.1 (by decide),
   (do_remove_stake_error_spec exStake 3 1 1 10).2.2.1 (by decide)
     (by decide),
   (do_remove_stake_error_spec exStake 2 1 1 1000).2.2.2.1 (by decide)
     (by decide) (by decide),
   (do_remove_stake_error_spec exStake 2 1 1 10).2.2.2.2.2 (by decide)
     (by decide) (by decide) (by decide)⟩

/-- Claim C8: the price-limit computation is a placeholder:
`get_max_amount_remove` returns zero for every netuid and limit price, and
`do_remove_stake_limit` returns Ok while performing no validation and no
state mutation. -/
theorem do_remove_stake_limit_placeholder (st : StakeState)
    (coldkey hotkey netuid stake_to_be_added limit_price : Nat) :
    get_max_amount_remove netuid limit_price = 0 ∧
    do_remove_stake_limit st coldkey hotkey netuid stake_to_be_added
      limit_price = (st, none) :=
  ⟨rfl, rfl⟩

/-- EVM exit errors reachable in the balance-transfer precompile. -/
inductive EvmExitError where
  | InvalidRange
  | OutOfFund
  deriving DecidableEq, Repr

/-- `get_slice` from `runtime/src/precompiles/mod.rs`: `data.get(from..to)`
as a slice of bytes, `none` when the range is out of bounds (the caller
maps this to an `InvalidRange` failure through `?`). -/
def get_slice (data : List Nat) (a b : Nat) : Option (List Nat) :=
  if a ≤ b ∧ b ≤ data.length then some ((data.drop a).take (b - a))
  else none

/-- The first four bytes of `keccak256("transfer(bytes32)")` — the method
id computed by `get_method_id` and matched by the precompile
(`0xcd6f4eb1`). -/
def transferMethodId : List Nat := [0xcd, 0x6f, 0x4e, 0xb1]

/-- `BalanceTransferPrecompile::execute`, parameterized by the two external
collaborators: `conv` is `BalanceConverter::into_substrate_balance` (EVM
`U256` value to substrate balance, `none` when out of native range) and
`dispatch dst amount balances` is the runtime dispatch of the
`transfer_allow_death` call (`none` = dispatch error).  Returns the final
balances together with the precompile result (error kind or output
bytes). -/
def bt_execute (conv : Nat → Option Nat)
    (dispatch : List Nat → Nat → (Nat → Nat) → Option (Nat → Nat))
    (bal : Nat → Nat) (txdata : List Nat) (apparent_value : Nat) :
    (Nat → Nat) × Except EvmExitError (List Nat) :=
  match get_slice txdata 0 4 with
  | none => (bal, Except.error EvmExitError.InvalidRange)
  | some method =>
    if method ≠ transferMethodId then (bal, Except.ok [])
    else
      match conv apparent_value with
      | none => (bal, Except.error EvmExitError.OutOfFund)
      | some amount_sub =>
        if amount_sub = 0 then (bal, Except.ok [])
        else
          match get_slice txdata 4 36 with
          | none => (bal, Except.error EvmExitError.InvalidRange)
          | some address_bytes_dst =>
            match dispatch address_bytes_dst amount_sub bal with
            | some bal2 => (bal2, Except.ok [])
            | none => (bal, Except.error EvmExitError.OutOfFund)

/-- Claim C10 (amended): every call whose input has at least four bytes and
whose first four bytes differ from the method id of "transfer(bytes32)",
and every call whose input has at least four bytes and whose attached EVM
value converts to a zero substrate amount, returns success with empty
output, dispatches no transfer, and leaves all balances unchanged.  (With
fewer than four input bytes the precompile instead fails with
`InvalidRange`.) -/
theorem bt_execute_early_success (conv : Nat → Option Nat)
    (dispatch : List Nat → Nat → (Nat → Nat) → Option (Nat → Nat))
    (bal : Nat → Nat) (txdata : List Nat) (apparent_value : Nat)
    (hlen : 4 ≤ txdata.length)
    (hcase : txdata.take 4 ≠ transferMethodId ∨
      conv apparent_value = some 0) :
    bt_execute conv dispatch bal txdata apparent_value =
      (bal, Except.ok []) := by
  have hslice : get_slice txdata 0 4 = some (txdata.take 4) := by
    unfold get_slice
    rw [if_pos ⟨by omega, hlen⟩]
    simp
  unfold bt_execute
  simp only [hslice]
  rcases hcase with hm | hz
  · rw [if_pos hm]
  · by_cases hm : txdata.take 4 ≠ transferMethodId
    · rw [if_pos hm]
    · rw [if_neg hm]
      simp only [hz, if_true]

/-- Claim C10 counterexample: a call with empty calldata and a value that
converts to a zero substrate amount fails with `InvalidRange` (from
`get_slice(txdata, 0, 4)`) instead of returning success with empty output
as the claim states. -/
theorem bt_execute_empty_calldata_cex :
    (bt_execute (fun _ => some 0) (fun _ _ _ => none) (fun _ => 0)
      [] 0).2 = Except.error EvmExitError.InvalidRange := rfl

/-- Witness for claim C10: a four-byte input `[1, 2, 3, 4]` differing from
the method id returns success with empty output and unchanged balances, and
so does a 36-byte input starting with the method id whose value converts to
zero. -/
theorem bt_execute_early_success_witness :
    bt_execute (fun _ => some 5) (fun _ _ _ => none) (fun _ => 3)
      [1, 2, 3, 4] 7 = ((fun _ => 3), Except.ok []) ∧
    bt_execute (fun _ => some 0) (fun _ _ _ => none) (fun _ => 3)
      (transferMethodId ++ List.replicate 32 0) 7 =
      ((fun _ => 3), Except.ok []) :=
  ⟨bt_execute_early_success _ _ _ _ _ (by decide) (Or.inl (by decide)),
   bt_execute_early_success _ _ _ _ _ (by decide) (Or.inr rfl)⟩

end Subtensor
